import Mathlib

/-!
Verification development for the Bw-Tree core of the repository
(crates/bwetree).  The Rust source is shallowly embedded: mutex-guarded
fields become plain fields, the mapping table becomes an association
list with HashMap semantics, delta chains become newest-first lists,
panics (unwrap, out-of-bounds indexing) become the none result, and the
unbounded retry loops of insert, delete and the SMO handlers are given
an explicit fuel parameter (none also means the fuel ran out).
-/

namespace BwSpec

/-- Key is i64 in the source (types.rs). -/
abbrev Key := Int

/-- Value is a byte vector in the source (types.rs); bytes are modelled as Nat. -/
abbrev Value := List Nat

/-- PageID is usize in the source (types.rs). -/
abbrev PageID := Nat

/-- LSN is u64 in the source (types.rs). -/
abbrev LSN := Nat

/-- Sentinel Key MIN used for the initial root bounds (i64 minimum). -/
def key_min : Key := -9223372036854775808

/-- Sentinel Key MAX used for the initial root bounds (i64 maximum). -/
def key_max : Key := 9223372036854775807

/-- NodeType from types.rs. -/
inductive NodeType where
  | Internal : NodeType
  | Leaf : NodeType
deriving DecidableEq, Repr

/-- DeltaNode from delta.rs.  The next pointers of the source form a
newest-first singly linked list; a chain is therefore embedded as a
List Delta with the head being the newest node is the first element. -/
inductive Delta where
  | dataDelta (lsn : LSN) (key : Key) (value : Value) : Delta
  | deleteDelta (lsn : LSN) (key : Key) : Delta
  | indexDelta (lsn : LSN) (index_entries : List (Key × PageID)) : Delta
  | splitDelta (lsn : LSN) (split_key : Key) (right_page_id : PageID) : Delta
  | mergeDelta (lsn : LSN) (merge_key : Key) (merged_page_id : PageID) : Delta
  | linkDelta (lsn : LSN) (data_delta_count : Nat) : Delta
  | flushDelta (storage_location : Nat) : Delta
deriving DecidableEq, Repr

/-- Page from page.rs with the mutexes flattened away. -/
structure Page where
  page_id : PageID
  node_type : NodeType
  low_key : Key
  high_key : Key
  delta_chain : List Delta
  index_entries : List (Key × PageID)
  base_data : List (Key × Value)
  right_sibling : Option PageID
deriving DecidableEq, Repr

/-- Page constructor mirroring Page::new in page.rs. -/
def page_new (pid : PageID) (nt : NodeType) (lo hi : Key) : Page :=
  { page_id := pid, node_type := nt, low_key := lo, high_key := hi,
    delta_chain := [], index_entries := [], base_data := [],
    right_sibling := none }

/-- MappingTableEntry from mapping_table.rs. -/
structure MappingTableEntry where
  page : Page
  pending_alloc : Bool
  pending_dealloc : Bool
  under_smo : Bool
deriving DecidableEq, Repr

/-- The mapping table, a HashMap from PageID to entry in the source,
embedded as an association list with at most one binding per id. -/
abbrev MappingTable := List (PageID × MappingTableEntry)

/-- MappingTable::get_entry (mapping_table.rs lines 25-28). -/
def get_entry (t : MappingTable) (pid : PageID) : Option MappingTableEntry :=
  (t.find? (fun p => decide (p.1 = pid))).map Prod.snd

/-- MappingTable::update_entry (HashMap insert, mapping_table.rs lines 30-33). -/
def update_entry (t : MappingTable) (pid : PageID) (e : MappingTableEntry) :
    MappingTable :=
  if t.any (fun p => decide (p.1 = pid)) then
    t.map (fun p => if p.1 = pid then (pid, e) else p)
  else
    (pid, e) :: t

/-- Replacement of the page stored at an id, modelling an in-place
mutation of the page behind the shared Arc of the source: the mapping
table keeps the same entry flags and sees the new page content. -/
def update_page (t : MappingTable) (pid : PageID) (pg : Page) : MappingTable :=
  t.map (fun p => if p.1 = pid then (p.1, { p.2 with page := pg }) else p)

/-- MappingTable::set_under_smo (mapping_table.rs lines 35-40): a plain
write of the flag, no-op when the id is absent. -/
def set_under_smo (t : MappingTable) (pid : PageID) : MappingTable :=
  t.map (fun p => if p.1 = pid then (p.1, { p.2 with under_smo := true }) else p)

/-- MappingTable::clear_under_smo (mapping_table.rs lines 42-47). -/
def clear_under_smo (t : MappingTable) (pid : PageID) : MappingTable :=
  t.map (fun p => if p.1 = pid then (p.1, { p.2 with under_smo := false }) else p)

/-- MappingTable::is_under_smo (mapping_table.rs lines 49-56): a plain
read of the flag, false when the id is absent. -/
def is_under_smo (t : MappingTable) (pid : PageID) : Bool :=
  match get_entry t pid with
  | some e => e.under_smo
  | none => false

/-- MappingTable::set_pending_alloc (mapping_table.rs lines 58-63). -/
def set_pending_alloc (t : MappingTable) (pid : PageID) : MappingTable :=
  t.map (fun p => if p.1 = pid then (p.1, { p.2 with pending_alloc := true }) else p)

/-- MappingTable::clear_pending_alloc (mapping_table.rs lines 65-70). -/
def clear_pending_alloc (t : MappingTable) (pid : PageID) : MappingTable :=
  t.map (fun p => if p.1 = pid then (p.1, { p.2 with pending_alloc := false }) else p)

/-- RequestType from recovery.rs. -/
inductive RequestType where
  | insertReq (key : Key) (value : Value) (lsn : LSN) : RequestType
  | deleteReq (key : Key) (lsn : LSN) : RequestType
  | splitReq : RequestType
deriving DecidableEq, Repr

/-- SuspendedRequest from recovery.rs. -/
structure SuspendedRequest where
  request_type : RequestType
deriving DecidableEq, Repr

/-- The mutable state of a BweTree (tree.rs lines 12-20): the mapping
table, the root page id, the suspended-request queue and the page-id
allocator.  The garbage collector and storage manager collaborators are
not touched by any of the modelled operations and are omitted. -/
structure TreeState where
  mappingTable : MappingTable
  rootPageId : PageID
  nextPageId : PageID
  suspended : List (PageID × List SuspendedRequest)
deriving DecidableEq, Repr

/-- BweTree::new (tree.rs lines 23-48): an empty leaf root spanning the
whole key space, page ids issued from 1. -/
def new_tree : TreeState :=
  { mappingTable :=
      [(0, { page := page_new 0 NodeType.Leaf key_min key_max,
             pending_alloc := false, pending_dealloc := false,
             under_smo := false })],
    rootPageId := 0, nextPageId := 1, suspended := [] }

/-- BweTree::allocate_page_id (tree.rs lines 50-55). -/
def allocate_page_id (t : TreeState) : PageID × TreeState :=
  (t.nextPageId, { t with nextPageId := t.nextPageId + 1 })

/-- Suspended-queue lookup used by wake_up_suspended_requests. -/
def lookup_suspended (q : List (PageID × List SuspendedRequest)) (pid : PageID) :
    Option (List SuspendedRequest) :=
  (q.find? (fun p => decide (p.1 = pid))).map Prod.snd

/-- Suspended-queue removal (HashMap remove in tree.rs line 69). -/
def remove_suspended (q : List (PageID × List SuspendedRequest)) (pid : PageID) :
    List (PageID × List SuspendedRequest) :=
  q.filter (fun p => !(decide (p.1 = pid)))

/-- Suspended-queue FIFO push (entry or_default push, tree.rs line 62). -/
def push_suspended (q : List (PageID × List SuspendedRequest)) (pid : PageID)
    (r : SuspendedRequest) : List (PageID × List SuspendedRequest) :=
  if q.any (fun p => decide (p.1 = pid)) then
    q.map (fun p => if p.1 = pid then (p.1, p.2 ++ [r]) else p)
  else
    q ++ [(pid, [r])]

/-- BweTree::suspend_request restricted to its visible state effect
(tree.rs lines 60-64): the request is queued; the condvar wait only
blocks the calling thread. -/
def enqueue_request (t : TreeState) (pid : PageID) (r : SuspendedRequest) :
    TreeState :=
  { t with suspended := push_suspended t.suspended pid r }

/-- PageState from tree.rs lines 257-264. -/
structure PageState where
  node_type : NodeType
  low_key : Key
  high_key : Key
  records : List (Key × Value)
  index_entries : List (Key × PageID)
  right_sibling : Option PageID
deriving DecidableEq, Repr

/-- Stable insertion of one keyed element into an already key-sorted
list: the new element goes after every element whose key is less than
or equal to its own, which preserves the original relative order of
equal keys exactly like the stable sort_by of the source. -/
def insert_sorted_by_key {α : Type} (x : Key × α) :
    List (Key × α) → List (Key × α)
  | [] => [x]
  | y :: ys =>
    if y.1 ≤ x.1 then y :: insert_sorted_by_key x ys else x :: y :: ys

/-- Stable sort by key, modelling the stable Vec::sort_by of the source
(tree.rs lines 326-329). -/
def sort_by_key {α : Type} (l : List (Key × α)) : List (Key × α) :=
  l.foldl (fun acc x => insert_sorted_by_key x acc) []

/-- One step of the chain walk of BweTree::consolidate_page
(tree.rs lines 285-323), applied to the delta currently visited. -/
def apply_delta (ps : PageState) (d : Delta) : PageState :=
  match d with
  | Delta.dataDelta _ k v =>
    if ps.node_type = NodeType.Leaf then
      { ps with records := ps.records ++ [(k, v)] }
    else ps
  | Delta.deleteDelta _ k =>
    if ps.node_type = NodeType.Leaf then
      { ps with records := ps.records.filter (fun r => decide (r.1 ≠ k)) }
    else ps
  | Delta.indexDelta _ es =>
    if ps.node_type = NodeType.Internal then
      { ps with index_entries := ps.index_entries ++ es }
    else ps
  | Delta.splitDelta _ sk rid =>
    { ps with high_key := sk, right_sibling := some rid }
  | Delta.mergeDelta _ mk _ =>
    { ps with low_key := mk }
  | Delta.linkDelta _ _ => ps
  | Delta.flushDelta _ => ps

/-- BweTree::consolidate_page (tree.rs lines 267-332): seed the state
from the page fields and base content, walk the chain newest to
oldest applying each delta, then stably sort by key. -/
def consolidate_page (p : Page) : PageState :=
  let ps0 : PageState :=
    { node_type := p.node_type, low_key := p.low_key, high_key := p.high_key,
      records := if p.node_type = NodeType.Leaf then p.base_data else [],
      index_entries :=
        if p.node_type = NodeType.Leaf then [] else p.index_entries,
      right_sibling := p.right_sibling }
  let ps1 := p.delta_chain.foldl apply_delta ps0
  if ps1.node_type = NodeType.Leaf then
    { ps1 with records := sort_by_key ps1.records }
  else
    { ps1 with index_entries := sort_by_key ps1.index_entries }

/-- BweTree::find_child_in_internal_node (tree.rs lines 247-254): the
first index entry whose key is strictly greater than the lookup key,
falling back to the last entry. -/
def find_child_in_internal_node (ps : PageState) (key : Key) : Option PageID :=
  match ps.index_entries.find? (fun e => decide (key < e.1)) with
  | some e => some e.2
  | none => ps.index_entries.getLast?.map Prod.snd

/-- Byte size of one leaf record as computed by calculate_logical_size:
size_of_val of an i64 key is 8, plus the value length. -/
def record_size (kv : Key × Value) : Nat := 8 + kv.2.length

/-- BweTree::smo_threshold (tree.rs lines 361-363). -/
def smo_threshold : Nat := 4 * 1024

/-- BweTree::calculate_logical_size (tree.rs lines 341-354); the entry
size of an internal page is size_of Key plus size_of PageID, 16 bytes. -/
def calculate_logical_size (p : Page) : Nat :=
  let ps := consolidate_page p
  match ps.node_type with
  | NodeType.Leaf => (ps.records.map record_size).foldl (fun a b => a + b) 0
  | NodeType.Internal => ps.index_entries.length * 16

/-- BweTree::can_split (tree.rs lines 356-359). -/
def can_split (p : Page) : Bool :=
  decide (calculate_logical_size p / 2 ≥ smo_threshold / 4)

/-- BweTree::need_split (tree.rs lines 336-339). -/
def need_split (p : Page) : Bool :=
  decide (calculate_logical_size p > smo_threshold) && can_split p

/-- BweTree::merge_threshold (tree.rs lines 509-511). -/
def merge_threshold : Nat := smo_threshold / 4

/-- BweTree::need_merge (tree.rs lines 504-507). -/
def need_merge (p : Page) : Bool :=
  decide (calculate_logical_size p < merge_threshold)

/-- BweTree::choose_split_key (tree.rs lines 439-449): the key at the
middle index of the consolidated view; the direct Vec indexing of the
source panics on an empty view, modelled by none. -/
def choose_split_key (p : Page) : Option Key :=
  let ps := consolidate_page p
  match ps.node_type with
  | NodeType.Leaf => (ps.records.get? (ps.records.length / 2)).map Prod.fst
  | NodeType.Internal =>
    (ps.index_entries.get? (ps.index_entries.length / 2)).map Prod.fst

/-- BweTree::find_left_sibling (tree.rs lines 610-614): the source is an
unimplemented placeholder that always returns None. -/
def find_left_sibling (_p : Page) : Option PageID := none

/-- Page::add_index_entry (page.rs lines 46-50): push then stable sort. -/
def add_index_entry (es : List (Key × PageID)) (k : Key) (pid : PageID) :
    List (Key × PageID) :=
  sort_by_key (es ++ [(k, pid)])

/-- Descent loop of BweTree::find_leaf_page_with_parents (tree.rs lines
225-245).  The outer some layer distinguishes a completed run from a
run that exhausted the fuel; the inner Option is the Option returned by
the source, none when a mapping-table lookup or child lookup fails.
Parents are pushed root first, the immediate parent last. -/
def find_leaf_aux (t : TreeState) (key : Key) :
    Nat → PageID → List PageID → Option (Option (PageID × List PageID))
  | 0, _, _ => none
  | fuel + 1, pid, parents =>
    match get_entry t.mappingTable pid with
    | none => some none
    | some entry =>
      match (consolidate_page entry.page).node_type with
      | NodeType.Leaf => some (some (pid, parents))
      | NodeType.Internal =>
        match find_child_in_internal_node (consolidate_page entry.page) key with
        | none => some none
        | some child => find_leaf_aux t key fuel child (parents ++ [pid])

/-- BweTree::find_leaf_page_with_parents, starting from the root. -/
def find_leaf_with_parents (t : TreeState) (fuel : Nat) (key : Key) :
    Option (Option (PageID × List PageID)) :=
  find_leaf_aux t key fuel t.rootPageId []

/-- Page-scan loop of BweTree::range_query (tree.rs lines 529-550):
collect the in-range records of the current page, then move to the
right sibling of the consolidated view when one exists and
start_key is at most end_key; the unwrap on the sibling lookup
(tree.rs line 543) panics when the sibling id is unmapped, modelled
by none. -/
def rq_loop :
    Nat → TreeState → MappingTableEntry → Key → Key →
      Option (List (Key × Value))
  | 0, _, _, _, _ => none
  | fuel + 1, t, entry, s, e =>
    let ps := consolidate_page entry.page
    let res := ps.records.filter (fun kv => decide (s ≤ kv.1) && decide (kv.1 ≤ e))
    match ps.right_sibling with
    | some rid =>
      if s ≤ e then
        match get_entry t.mappingTable rid with
        | none => none
        | some e2 =>
          match rq_loop fuel t e2 s e with
          | none => none
          | some rest => some (res ++ rest)
      else some res
    | none => some res

/-- BweTree::range_query (tree.rs lines 520-553). -/
def range_query : Nat → TreeState → Key → Key → Option (List (Key × Value))
  | 0, _, _, _ => none
  | fuel + 1, t, s, e =>
    match find_leaf_with_parents t fuel s with
    | none => none
    | some none => some []
    | some (some (pid, _)) =>
      match get_entry t.mappingTable pid with
      | none => none
      | some entry => rq_loop fuel t entry s e

/-- The mutually recursive operations of BweTree, folded into one fueled
interpreter: insert and delete with their retry loops, handle_split,
split_index_entry_with_parents, handle_merge, the merge-into-left code
of handle_merge past the left-sibling lookup,
merge_index_entry_with_parents, wake_up_suspended_requests, and the
replay of a drained request list. -/
inductive Op where
  | insertOp (key : Key) (value : Value) (lsn : LSN) : Op
  | deleteOp (key : Key) (lsn : LSN) : Op
  | splitOp (pid : PageID) (parents : List PageID) : Op
  | splitIndexOp (old_pid : PageID) (split_key : Key) (new_pid : PageID)
      (parents : List PageID) : Op
  | mergeOp (pid : PageID) (parents : List PageID) : Op
  | mergeLeftOp (pid : PageID) (left_pid : PageID) (parents : List PageID) : Op
  | mergeIndexOp (merged_pid : PageID) (parents : List PageID) : Op
  | wakeOp (pid : PageID) : Op
  | replayOp (reqs : List SuspendedRequest) : Op
deriving DecidableEq, Repr

/-- Fueled interpreter for the BweTree operations.  Each branch mirrors
one source function; none means a panic (unwrap, out-of-bounds index)
or fuel exhaustion.  Page mutations through the shared Arc of the
source are modelled by rewriting the page stored in the mapping table
at its page id. -/
def exec : Nat → TreeState → Op → Option TreeState
  | 0, _, _ => none
  | fuel + 1, t, op =>
    match op with
    | Op.insertOp key value lsn =>
      -- BweTree::insert, one loop iteration (tree.rs lines 104-152)
      match find_leaf_with_parents t fuel key with
      | none => none
      | some none => some t
      | some (some (pid, parents)) =>
        if is_under_smo t.mappingTable pid then
          some (enqueue_request t pid
            { request_type := RequestType.insertReq key value lsn })
        else
          match get_entry t.mappingTable pid with
          | none => none
          | some entry =>
            let page2 :=
              { entry.page with
                delta_chain :=
                  Delta.dataDelta lsn key value :: entry.page.delta_chain }
            let t1 :=
              { t with mappingTable := update_page t.mappingTable pid page2 }
            if need_split page2 then
              match exec fuel t1 (Op.splitOp pid parents) with
              | none => none
              | some t2 => exec fuel t2 (Op.insertOp key value lsn)
            else some t1
    | Op.deleteOp key lsn =>
      -- BweTree::delete, one loop iteration (tree.rs lines 154-200)
      match find_leaf_with_parents t fuel key with
      | none => none
      | some none => some t
      | some (some (pid, parents)) =>
        if is_under_smo t.mappingTable pid then
          some (enqueue_request t pid
            { request_type := RequestType.deleteReq key lsn })
        else
          match get_entry t.mappingTable pid with
          | none => none
          | some entry =>
            let page2 :=
              { entry.page with
                delta_chain :=
                  Delta.deleteDelta lsn key :: entry.page.delta_chain }
            let t1 :=
              { t with mappingTable := update_page t.mappingTable pid page2 }
            if need_merge page2 then
              match exec fuel t1 (Op.mergeOp pid parents) with
              | none => none
              | some t2 => exec fuel t2 (Op.deleteOp key lsn)
            else some t1
    | Op.splitOp pid parents =>
      -- BweTree::handle_split (tree.rs lines 365-437)
      if is_under_smo t.mappingTable pid then
        some (enqueue_request t pid { request_type := RequestType.splitReq })
      else
        let t1 := { t with mappingTable := set_under_smo t.mappingTable pid }
        match get_entry t1.mappingTable pid with
        | none => none
        | some entry =>
          let alloc := allocate_page_id t1
          let new_page_id := alloc.1
          let t2 := alloc.2
          match choose_split_key entry.page with
          | none => none
          | some split_key =>
            match entry.page.right_sibling with
            | none => none
            | some rs =>
              let new_page : Page :=
                { page_id := new_page_id, node_type := entry.page.node_type,
                  low_key := split_key, high_key := entry.page.high_key,
                  delta_chain := [], index_entries := [], base_data := [],
                  right_sibling := some rs }
              let t3 :=
                { t2 with
                  mappingTable :=
                    update_entry t2.mappingTable new_page_id
                      { page := new_page, pending_alloc := true,
                        pending_dealloc := false, under_smo := false } }
              let old_page :=
                { entry.page with
                  high_key := split_key, right_sibling := some new_page_id,
                  delta_chain :=
                    Delta.splitDelta 0 split_key new_page_id ::
                      entry.page.delta_chain }
              let t4 :=
                { t3 with mappingTable := update_page t3.mappingTable pid old_page }
              let t5 :=
                { t4 with
                  mappingTable := clear_pending_alloc t4.mappingTable new_page_id }
              match exec fuel t5
                  (Op.splitIndexOp pid split_key new_page_id parents) with
              | none => none
              | some t6 =>
                let t7 :=
                  { t6 with mappingTable := clear_under_smo t6.mappingTable pid }
                exec fuel t7 (Op.wakeOp pid)
    | Op.splitIndexOp old_pid split_key new_pid parents =>
      -- BweTree::split_index_entry_with_parents (tree.rs lines 453-502)
      match parents.getLast? with
      | some parent_id =>
        match get_entry t.mappingTable parent_id with
        | none => none
        | some parent_entry =>
          let pp2 :=
            { parent_entry.page with
              delta_chain :=
                Delta.indexDelta 0 [(split_key, new_pid)] ::
                  parent_entry.page.delta_chain }
          let t1 :=
            { t with mappingTable := update_page t.mappingTable parent_id pp2 }
          if need_split pp2 then
            exec fuel t1 (Op.splitOp parent_id parents.dropLast)
          else some t1
      | none =>
        match get_entry t.mappingTable old_pid with
        | none => none
        | some old_entry =>
          let alloc := allocate_page_id t
          let new_root_id := alloc.1
          let t1 := alloc.2
          let root0 := page_new new_root_id NodeType.Internal key_min key_max
          let root1 :=
            { root0 with
              index_entries :=
                add_index_entry
                  (add_index_entry root0.index_entries
                    old_entry.page.high_key old_pid)
                  split_key new_pid }
          let t2 :=
            { t1 with
              mappingTable :=
                update_entry t1.mappingTable new_root_id
                  { page := root1, pending_alloc := false,
                    pending_dealloc := false, under_smo := false } }
          some { t2 with rootPageId := new_root_id }
    | Op.mergeOp pid parents =>
      -- BweTree::handle_merge (tree.rs lines 557-608)
      let t1 := { t with mappingTable := set_under_smo t.mappingTable pid }
      match get_entry t1.mappingTable pid with
      | none => none
      | some entry =>
        match find_left_sibling entry.page with
        | none =>
          some { t1 with mappingTable := clear_under_smo t1.mappingTable pid }
        | some lid => exec fuel t1 (Op.mergeLeftOp pid lid parents)
    | Op.mergeLeftOp pid lid parents =>
      -- absorb path of BweTree::handle_merge (tree.rs lines 575-607)
      match get_entry t.mappingTable lid with
      | none => none
      | some left_entry =>
        match get_entry t.mappingTable pid with
        | none => none
        | some entry =>
          let ps := consolidate_page entry.page
          let lp := left_entry.page
          let lp1 :=
            if ps.node_type = NodeType.Leaf then
              { lp with base_data := sort_by_key (lp.base_data ++ ps.records) }
            else
              { lp with
                index_entries :=
                  sort_by_key (lp.index_entries ++ ps.index_entries) }
          let lp2 :=
            { lp1 with
              high_key := entry.page.high_key,
              right_sibling := entry.page.right_sibling }
          let t1 := { t with mappingTable := update_page t.mappingTable lid lp2 }
          -- tree.rs line 598: the source calls set_pending_alloc here,
          -- although its comment says it is setting PendingDealloc
          let t2 :=
            { t1 with mappingTable := set_pending_alloc t1.mappingTable pid }
          match exec fuel t2 (Op.mergeIndexOp pid parents) with
          | none => none
          | some t3 =>
            let t4 :=
              { t3 with mappingTable := clear_under_smo t3.mappingTable pid }
            exec fuel t4 (Op.wakeOp pid)
    | Op.mergeIndexOp merged_pid parents =>
      -- BweTree::merge_index_entry_with_parents (tree.rs lines 616-630)
      match parents.getLast? with
      | none => some t
      | some parent_id =>
        match get_entry t.mappingTable parent_id with
        | none => none
        | some parent_entry =>
          let pp2 :=
            { parent_entry.page with
              index_entries :=
                parent_entry.page.index_entries.filter
                  (fun e => decide (e.2 ≠ merged_pid)) }
          let t1 :=
            { t with mappingTable := update_page t.mappingTable parent_id pp2 }
          if need_merge pp2 then
            exec fuel t1 (Op.mergeOp parent_id parents.dropLast)
          else some t1
    | Op.wakeOp pid =>
      -- BweTree::wake_up_suspended_requests (tree.rs lines 67-86)
      match lookup_suspended t.suspended pid with
      | none => some t
      | some reqs =>
        exec fuel { t with suspended := remove_suspended t.suspended pid }
          (Op.replayOp reqs)
    | Op.replayOp reqs =>
      -- replay loop of wake_up_suspended_requests (tree.rs lines 73-84)
      match reqs with
      | [] => some t
      | r :: rest =>
        match r.request_type with
        | RequestType.insertReq k v l =>
          match exec fuel t (Op.insertOp k v l) with
          | none => none
          | some t1 => exec fuel t1 (Op.replayOp rest)
        | RequestType.deleteReq k l =>
          match exec fuel t (Op.deleteOp k l) with
          | none => none
          | some t1 => exec fuel t1 (Op.replayOp rest)
        | RequestType.splitReq => exec fuel t (Op.replayOp rest)

/-- BweTree::insert with its retry loop, bounded by fuel. -/
def insert_op (fuel : Nat) (t : TreeState) (key : Key) (value : Value)
    (lsn : LSN) : Option TreeState :=
  exec fuel t (Op.insertOp key value lsn)

/-- BweTree::delete with its retry loop, bounded by fuel. -/
def delete_op (fuel : Nat) (t : TreeState) (key : Key) (lsn : LSN) :
    Option TreeState :=
  exec fuel t (Op.deleteOp key lsn)

/-- BweTree::handle_split, bounded by fuel. -/
def handle_split (fuel : Nat) (t : TreeState) (pid : PageID)
    (parents : List PageID) : Option TreeState :=
  exec fuel t (Op.splitOp pid parents)

/-- BweTree::handle_merge, bounded by fuel. -/
def handle_merge (fuel : Nat) (t : TreeState) (pid : PageID)
    (parents : List PageID) : Option TreeState :=
  exec fuel t (Op.mergeOp pid parents)

/-- The absorb path of BweTree::handle_merge (tree.rs lines 575-607),
entered with the id of the located left sibling.  In the source this
path is unreachable because find_left_sibling is a placeholder that
always returns None. -/
def merge_into_left (fuel : Nat) (t : TreeState) (pid lid : PageID)
    (parents : List PageID) : Option TreeState :=
  exec fuel t (Op.mergeLeftOp pid lid parents)

/-- Consolidated records of the page mapped at an id. -/
def view_records (t : TreeState) (pid : PageID) : List (Key × Value) :=
  match get_entry t.mappingTable pid with
  | some e => (consolidate_page e.page).records
  | none => []

/-- Effective high key of the consolidated view of the page at an id. -/
def view_high_key (t : TreeState) (pid : PageID) : Option Key :=
  (get_entry t.mappingTable pid).map (fun e => (consolidate_page e.page).high_key)

/-- Effective low key of the consolidated view of the page at an id. -/
def view_low_key (t : TreeState) (pid : PageID) : Option Key :=
  (get_entry t.mappingTable pid).map (fun e => (consolidate_page e.page).low_key)

/-- Whether every key of the consolidated view of the page at an id lies
inside the effective bounds, low inclusive and high exclusive, of that
view: invariant 1 of the data model. -/
def page_keys_in_range (t : TreeState) (pid : PageID) : Bool :=
  match get_entry t.mappingTable pid with
  | none => true
  | some e =>
    let ps := consolidate_page e.page
    ps.records.all (fun kv => decide (ps.low_key ≤ kv.1) && decide (kv.1 < ps.high_key))

/-- Pending-dealloc flag of the entry at an id, false when unmapped. -/
def pending_dealloc_at (t : TreeState) (pid : PageID) : Bool :=
  match get_entry t.mappingTable pid with
  | some e => e.pending_dealloc
  | none => false

/-- Pending-alloc flag of the entry at an id, false when unmapped. -/
def pending_alloc_at (t : TreeState) (pid : PageID) : Bool :=
  match get_entry t.mappingTable pid with
  | some e => e.pending_alloc
  | none => false

/-- Leaf page builder for concrete test states. -/
def mk_leaf (pid : PageID) (lo hi : Key) (base : List (Key × Value))
    (rs : Option PageID) : Page :=
  { page_id := pid, node_type := NodeType.Leaf, low_key := lo, high_key := hi,
    delta_chain := [], index_entries := [], base_data := base,
    right_sibling := rs }

/-- Internal page builder for concrete test states. -/
def mk_internal (pid : PageID) (es : List (Key × PageID)) : Page :=
  { page_id := pid, node_type := NodeType.Internal, low_key := key_min,
    high_key := key_max, delta_chain := [], index_entries := es,
    base_data := [], right_sibling := none }

/-- Mapping-table entry with all transient flags cleared. -/
def plain_entry (p : Page) : MappingTableEntry :=
  { page := p, pending_alloc := false, pending_dealloc := false,
    under_smo := false }

/-- Concrete state for the split-content claim: leaf 0 is the root,
holds four records and has leaf 1 as right sibling. -/
def split_state : TreeState :=
  { mappingTable :=
      [(0, plain_entry
            (mk_leaf 0 key_min 50 [(10, [1]), (20, [2]), (30, [3]), (40, [4])]
              (some 1))),
       (1, plain_entry (mk_leaf 1 50 key_max [(60, [5])] none))],
    rootPageId := 0, nextPageId := 2, suspended := [] }

/-- Concrete state for the range-invariant claim, with keys distinct
from those of split_state. -/
def inv_state : TreeState :=
  { mappingTable :=
      [(0, plain_entry
            (mk_leaf 0 key_min 500
              [(100, [1]), (200, [2]), (300, [3]), (400, [4])] (some 1))),
       (1, plain_entry (mk_leaf 1 500 key_max [(600, [5])] none))],
    rootPageId := 0, nextPageId := 2, suspended := [] }

/-- Concrete state for the straddling-range claim: internal root 2 over
leaves 0 and 1; the index entry semantics route a key to the child of
the first entry whose key is strictly greater. -/
def straddle_state : TreeState :=
  { mappingTable :=
      [(0, plain_entry
            (mk_leaf 0 key_min 50 [(10, [1]), (20, [2]), (30, [3]), (40, [4])]
              (some 1))),
       (1, plain_entry (mk_leaf 1 50 key_max [(60, [5])] none)),
       (2, plain_entry (mk_internal 2 [(50, 0), (key_max, 1)]))],
    rootPageId := 2, nextPageId := 3, suspended := [] }

/-- Concrete state for the merge-flags claim: leaf 1 is the left
neighbour of leaf 2. -/
def merge_state : TreeState :=
  { mappingTable :=
      [(1, plain_entry (mk_leaf 1 key_min 50 [(10, [1])] (some 2))),
       (2, plain_entry (mk_leaf 2 50 key_max [(60, [2])] none))],
    rootPageId := 1, nextPageId := 3, suspended := [] }

/-- Concrete state with an unmapped root page id: the mapping table is
empty, so the root-to-leaf traversal fails to resolve a page. -/
def missing_root_state : TreeState :=
  { mappingTable := [], rootPageId := 7, nextPageId := 8, suspended := [] }

/-- A value of 1016 bytes: with the 8 byte key overhead one such record
keeps the logical page size at the merge threshold, so the delete path
does not enter its merge retry loop. -/
def big_value : Value := List.replicate 1016 0

/-- One caller of the SMO acquisition protocol of handle_split
(tree.rs lines 369-377): program counter 0 means the is_under_smo read
is still to execute, 1 means the read happened and saw_free records its
result, 2 means the conditional set_under_smo write also happened.
Each mapping-table call of the source takes and releases the RwLock on
its own, so the read and the write are separate atomic steps and steps
of two callers may interleave. -/
structure AcqThread where
  pc : Nat
  saw_free : Bool
deriving DecidableEq, Repr

/-- Execute the next instruction of one acquisition caller against the
shared mapping table. -/
def acq_step (mt : MappingTable) (th : AcqThread) (pid : PageID) :
    MappingTable × AcqThread :=
  if th.pc = 0 then
    (mt, { pc := 1, saw_free := !(is_under_smo mt pid) })
  else if th.pc = 1 then
    (if th.saw_free then set_under_smo mt pid else mt, { th with pc := 2 })
  else (mt, th)

/-- A caller has acquired SMO ownership when it finished both steps and
its read of the flag saw false, which is exactly the condition under
which handle_split proceeds past tree.rs line 369 into the SMO body. -/
def acq_acquired (th : AcqThread) : Bool := decide (th.pc = 2) && th.saw_free

/-- Two concurrent acquisition callers plus the shared mapping table. -/
structure AcqSystem where
  mt : MappingTable
  thA : AcqThread
  thB : AcqThread
deriving DecidableEq, Repr

/-- Run one scheduled step: true steps caller A, false steps caller B. -/
def acq_sched_step (s : AcqSystem) (who : Bool) (pid : PageID) : AcqSystem :=
  if who then
    let r := acq_step s.mt s.thA pid
    { s with mt := r.1, thA := r.2 }
  else
    let r := acq_step s.mt s.thB pid
    { s with mt := r.1, thB := r.2 }

/-- Run a whole schedule of interleaved steps. -/
def acq_run (s : AcqSystem) (sched : List Bool) (pid : PageID) : AcqSystem :=
  sched.foldl (fun st w => acq_sched_step st w pid) s

/-- Initial two-caller system over a table whose page 0 is not under SMO. -/
def acq_init : AcqSystem :=
  { mt := [(0, plain_entry (page_new 0 NodeType.Leaf key_min key_max))],
    thA := { pc := 0, saw_free := false },
    thB := { pc := 0, saw_free := false } }

/-- Over an inverted range no record passes the in-range filter of the
range-query scan loop. -/
theorem filter_range_nil (s e : Key) (h : e < s) (l : List (Key × Value)) :
    l.filter (fun kv => decide (s ≤ kv.1) && decide (kv.1 ≤ e)) = [] := by
  induction l with
  | nil => rfl
  | cons a as ih =>
    have hb : (decide (s ≤ a.1) && decide (a.1 ≤ e)) = false := by
      by_cases h1 : s ≤ a.1
      · have h2 : ¬ a.1 ≤ e := not_le.mpr (lt_of_lt_of_le h h1)
        simp [h1, h2]
      · simp [h1]
    simp [List.filter, hb, ih]

/-- With an inverted range the scan loop returns after its first page
with an empty result, never taking the right-sibling branch; in
particular one unit of fuel suffices, so no sibling is followed. -/
theorem rq_loop_stops_when_inverted (fuel : Nat) (t : TreeState)
    (en : MappingTableEntry) (s e : Key) (h : e < s) :
    rq_loop (fuel + 1) t en s e = some [] := by
  have hnle : ¬ s ≤ e := not_le.mpr h
  cases hrs : (consolidate_page en.page).right_sibling with
  | none => simp [rq_loop, hrs, filter_range_nil s e h]
  | some rid => simp [rq_loop, hrs, hnle, filter_range_nil s e h]

/-- C10: for every tree state and every pair of keys with
start_key > end_key, range_query returns the empty list whenever it
returns at all, and the page-scan loop stops on the very first page
with an empty result and without following any right-sibling link
(one unit of scan fuel suffices). -/
theorem range_query_empty_on_inverted_range (fuel : Nat) (t : TreeState)
    (s e : Key) (h : e < s) :
    (∀ r, range_query fuel t s e = some r → r = []) ∧
    (∀ en, rq_loop 1 t en s e = some []) := by
  constructor
  · intro r hr
    cases fuel with
    | zero => simp [range_query] at hr
    | succ f =>
      simp only [range_query] at hr
      cases hfl : find_leaf_with_parents t f s with
      | none => rw [hfl] at hr; simp at hr
      | some o =>
        cases o with
        | none =>
          rw [hfl] at hr
          simp at hr
          exact hr
        | some pr =>
          rw [hfl] at hr
          cases hge : get_entry t.mappingTable pr.1 with
          | none => simp [hge] at hr
          | some en =>
            simp only [hge] at hr
            cases f with
            | zero => simp [rq_loop] at hr
            | succ f2 =>
              rw [rq_loop_stops_when_inverted f2 t en s e h] at hr
              exact (Option.some.injEq _ _ ▸ hr).symm
  · intro en
    exact rq_loop_stops_when_inverted 0 t en s e h

/-- Closed witness for the inverted-range theorem at fuel 3 on the
fresh tree with start 1 and end 0. -/
theorem range_query_empty_on_inverted_range_witness :
    (∀ r, range_query 3 new_tree 1 0 = some r → r = []) ∧
    (∀ en, rq_loop 1 new_tree en 1 0 = some []) :=
  range_query_empty_on_inverted_range 3 new_tree 1 0 (by decide)

/-- C1: refuted on the code.  Consolidation keeps every DataDelta
occurrence of a key instead of resolving the key to the newest one:
after two inserts of key 7 through the insert path, the consolidated
view of the root holds two records for key 7 and the earlier value
is still observable, against the first-seen-wins resolution the claim
states. -/
theorem consolidate_keeps_stale_value_after_repeated_insert :
    ((insert_op 4 new_tree 7 [1] 1).bind (fun t1 => insert_op 4 t1 7 [2] 2)).map
        (fun t2 => view_records t2 0) =
      some [(7, [2]), (7, [1])] := by decide

set_option maxRecDepth 100000 in
/-- C2: refuted on the code.  Insert of key 5 followed by delete of
key 5, with no split in between, leaves range_query over the single
key returning the inserted record: the chain walk of consolidate_page
applies the newer tombstone to the accumulated records before it
replays the older DataDelta, so the tombstone removes nothing.  The
value is sized so that the delete path does not enter its merge retry
loop. -/
theorem insert_then_delete_not_empty :
    ((insert_op 4 new_tree 5 big_value 1).bind (fun t1 =>
        delete_op 4 t1 5 2)).bind (fun t2 => range_query 4 t2 5 5) =
      some [(5, big_value)] := by rfl

/-- C3: refuted on the code.  Splitting the four-record leaf 0 of
split_state picks split key 30, and afterwards the boundary part of
the claim holds (effective high key of the old page and low key of the
new page are both 30), but the old page consolidated view still holds
all four records, including keys 30 and 40 which are not below the
split key, while the new right sibling page 2 holds no records at all:
handle_split never moves the right half. -/
theorem handle_split_leaves_right_half_in_old_page :
    (handle_split 6 split_state 0 []).map
        (fun t2 => (view_records t2 0, view_records t2 2,
                    view_high_key t2 0, view_low_key t2 2)) =
      some ([(10, [1]), (20, [2]), (30, [3]), (40, [4])], [],
            some 30, some 30) := by decide

/-- C4: refuted on the code.  The bounds invariant holds on inv_state
before the split, and handle_split breaks it: the old page keeps keys
300 and 400 while its effective high key becomes the split key 300, so
not every key of the page is below the high key afterwards. -/
theorem key_range_invariant_broken_by_handle_split :
    page_keys_in_range inv_state 0 = true ∧
    (handle_split 6 inv_state 0 []).map (fun t2 => page_keys_in_range t2 0) =
      some false := by decide

/-- C5: refuted on the code.  After two inserts of key 9, range_query
over the single key 9 returns two pairs for that key, the newest and
the stale value, instead of exactly the live keys each mapped to its
most recent value. -/
theorem range_query_returns_duplicate_and_stale :
    ((insert_op 4 new_tree 9 [3] 1).bind (fun t1 => insert_op 4 t1 9 [4] 2)).bind
        (fun t2 => range_query 4 t2 9 9) =
      some [(9, [4]), (9, [3])] := by decide

/-- C6: refuted on the code.  When the traversal cannot resolve the
root page in the mapping table, insert and delete return with the tree
state completely unchanged: the mutation is silently discarded, no
PageMissing condition reaches the caller, and the operations have no
error channel at all in their signatures. -/
theorem insert_silent_noop_on_missing_page :
    insert_op 5 missing_root_state 1 [9] 1 = some missing_root_state ∧
    delete_op 5 missing_root_state 1 1 = some missing_root_state := by decide

/-- C7: refuted on the code.  SMO acquisition in handle_split is an
is_under_smo read followed by a separate set_under_smo write, each
taking the table lock on its own.  Under the interleaving that runs
both reads before either write, both callers observe the flag free and
both proceed past the check as SMO owner, so the acquisition does not
return success to exactly one caller. -/
theorem smo_acquire_race_two_winners :
    acq_acquired (acq_run acq_init [true, false, true, false] 0).thA = true ∧
    acq_acquired (acq_run acq_init [true, false, true, false] 0).thB = true ∧
    is_under_smo (acq_run acq_init [true, false, true, false] 0).mt 0 = true := by
  decide

/-- C8: refuted on the code.  Absorbing page 2 into its left sibling
page 1 leaves the absorbed entry with pending_dealloc still false and
pending_alloc flipped to true: the source calls set_pending_alloc
where its own comment says it is setting PendingDealloc. -/
theorem merge_sets_pending_alloc_not_dealloc :
    (merge_into_left 5 merge_state 2 1 []).map
        (fun t2 => (pending_dealloc_at t2 2, pending_alloc_at t2 2)) =
      some (false, true) := by decide

/-- C9: refuted on the code.  On straddle_state the query over the
range 20 to 60 straddles the split key 30 chosen for leaf 0.  Before
the split it returns four records; after handle_split propagates the
backwards index entry to the parent, the same query is routed into the
empty new page and skips the old page entirely, returning only one
record, so the post-split result does not equal the pre-split result. -/
theorem range_query_differs_after_split :
    range_query 6 straddle_state 20 60 =
      some [(20, [2]), (30, [3]), (40, [4]), (60, [5])] ∧
    (handle_split 6 straddle_state 0 [2]).bind
        (fun t2 => range_query 6 t2 20 60) =
      some [(60, [5])] := by decide

end BwSpec
